import Mathlib

/-
Verification development for the lipsum interpreter.

The repository contains two evaluator variants over the same AST shape:
`src/interp.rs` (persistent `im::HashMap` environments, a threaded but unused
memoization cache) and `src/interpreter.rs` (mutable `HashMap` environments,
closures holding `Rc<RefCell<Context>>` cells) whose operator engine lives in
`src/binary.rs`.  Both are embedded shallowly below: machine integers are
modelled as `Int` (the spec leaves overflow implementation-defined), Rust
`Result` as `Except`, a Rust panic as an explicit `crash` outcome, stdout as a
list of printed lines, and the `Rc<RefCell<Context>>` cells of
`interpreter.rs` as indices into an explicit store of environments.
Evaluation is indexed by fuel; a run that exhausts its fuel is `timeout`.
-/

namespace Lipsum

/-- Source location attached to every term (`ast.rs`, struct `Location`):
byte offsets `start`/`end` (here `stop`) and the file name. -/
structure Location where
  start : Nat
  stop : Nat
  filename : String

/-- Binary operator tags (`BinaryOp` in the AST consumed by `interp.rs` and
`binary.rs`). -/
inductive BinaryOp where
  | eq | neq | lt | lte | gt | gte | and | or | add | sub | mul | div | rem

/-- Terms of the language, as consumed by both evaluators: each variant
carries its payload and a `Location`.  `let_` binds `name` to `value` inside
`next`; `function` holds the ordered parameter names and the body (`value`);
`binary` holds `lhs`, the operator tag and `rhs`. -/
inductive Term where
  | int (value : Int) (location : Location)
  | str (value : String) (location : Location)
  | bool (value : Bool) (location : Location)
  | var (text : String) (location : Location)
  | let_ (name : String) (value : Term) (next : Term) (location : Location)
  | function (parameters : List String) (value : Term) (location : Location)
  | call (callee : Term) (arguments : List Term) (location : Location)
  | if_ (condition : Term) (thenT : Term) (otherwise : Term) (location : Location)
  | binary (lhs : Term) (op : BinaryOp) (rhs : Term) (location : Location)
  | tuple (firstT : Term) (secondT : Term) (location : Location)
  | first (value : Term) (location : Location)
  | second (value : Term) (location : Location)
  | print (value : Term) (location : Location)

/-- `Term::location` from `ast.rs`: every variant surfaces its own location. -/
def Term.location : Term → Location
  | .int _ l => l
  | .str _ l => l
  | .bool _ l => l
  | .var _ l => l
  | .let_ _ _ _ l => l
  | .function _ _ l => l
  | .call _ _ l => l
  | .if_ _ _ _ l => l
  | .binary _ _ _ l => l
  | .tuple _ _ l => l
  | .first _ l => l
  | .second _ l => l
  | .print _ l => l

mutual
/-- Spec-side predicate (for comparison with `Interp.is_pure`): the body AST
contains a `Print` node anywhere, recursively, including under `Let`, `If`,
`Binary`, `Call`, `Tuple`, projections and nested function bodies.  Follows
the wording of spec section 4.4. -/
def Term.containsPrint : Term → Bool
  | .print _ _ => true
  | .int _ _ => false
  | .str _ _ => false
  | .bool _ _ => false
  | .var _ _ => false
  | .let_ _ v n _ => v.containsPrint || n.containsPrint
  | .function _ v _ => v.containsPrint
  | .call c args _ => c.containsPrint || containsPrintList args
  | .if_ c t o _ => c.containsPrint || t.containsPrint || o.containsPrint
  | .binary l _ r _ => l.containsPrint || r.containsPrint
  | .tuple a b _ => a.containsPrint || b.containsPrint
  | .first v _ => v.containsPrint
  | .second v _ => v.containsPrint

/-- Auxiliary list traversal for `Term.containsPrint`. -/
def containsPrintList : List Term → Bool
  | [] => false
  | t :: ts => t.containsPrint || containsPrintList ts
end

/-- Runtime error record (`RuntimeError`): a short message, a user-facing
detail (`full_text`) and the location the error is attributed to. -/
structure RuntimeError where
  message : String
  full_text : String
  location : Location

/-- Rust `char`/byte lexicographic order on strings, as a boolean on the
underlying character lists (UTF-8 byte order coincides with scalar-value
order, so this matches Rust `str` ordering). -/
def strLtb : List Char → List Char → Bool
  | [], [] => false
  | [], _ :: _ => true
  | _ :: _, [] => false
  | a :: as, b :: bs =>
    if a.toNat < b.toNat then true
    else if b.toNat < a.toNat then false
    else strLtb as bs

/-- Rust string strict order. -/
def strLt (a b : String) : Bool := strLtb a.data b.data

/-- Rust string non-strict order: `a <= b` iff not `b < a`. -/
def strLe (a b : String) : Bool := !strLt b a

/-- Rust `bool` strict order: `false < true`. -/
def boolLt (a b : Bool) : Bool := !a && b

/-- Rust `bool` non-strict order. -/
def boolLe (a b : Bool) : Bool := !a || b

namespace Interp

/-- Runtime values of `interp.rs`: `Closure` carries the ordered parameter
names, the body term, the captured environment (an association list standing
in for the persistent `im::HashMap`) and the purity flag; `Unit` is what
`eval_print` returns there. -/
inductive Value where
  | closure (parameters : List String) (body : Term)
      (context : List (String × Value)) (is_pure : Bool)
  | int (value : Int)
  | str (value : String)
  | bool (value : Bool)
  | tuple (firstV : Value) (secondV : Value)
  | unit

/-- The `Display` implementation of `interp.rs`. -/
def Value.display : Value → String
  | .closure _ _ _ _ => "[closure]"
  | .int i => toString i
  | .str s => s
  | .bool b => toString b
  | .tuple a b => "(" ++ a.display ++ ", " ++ b.display ++ ")"
  | .unit => "unit"

/-- Environments (`Context = im::HashMap<String, Value>`), modelled as
association lists whose lookup takes the first matching binding. -/
abbrev Context := List (String × Value)

/-- `HashMap::get`. -/
def lookup : Context → String → Option Value
  | [], _ => none
  | (k, v) :: rest, name => if k = name then some v else lookup rest name

/-- `HashMap::update` (insert-or-replace); prepending is lookup-equivalent. -/
def update (context : Context) (name : String) (value : Value) : Context :=
  (name, value) :: context

/-- `HashMap::union`, left-biased: bindings of the left map win. -/
def union (l r : Context) : Context := l ++ r

/-- The memoization cache of `interp.rs`:
`Cache = HashMap<(Term, Vec<String>), Value>`. -/
abbrev Cache := List ((Term × List String) × Value)

/-- Mutable collaborators threaded through evaluation: the cache and the
lines written to stdout. -/
structure St where
  cache : Cache
  output : List String

/-- Outcome of an operator of `interp.rs`: a value, a runtime error, or a
Rust panic (`crash`). -/
inductive VRes where
  | ok (v : Value)
  | err (e : RuntimeError)
  | crash (msg : String)

/-- `invalid_comparison` helper of `interp.rs`. -/
def invalid_comparison (l r : Value) (location : Location) : RuntimeError :=
  ⟨"invalid comparison", l.display ++ " and " ++ r.display ++ " cannot be compared", location⟩

/-- `Value::eq` of `interp.rs`. -/
def Value.eq (self other : Value) (location : Location) : VRes :=
  match self, other with
  | .bool l, .bool r => .ok (.bool (l == r))
  | .str l, .str r => .ok (.bool (l == r))
  | .int l, .int r => .ok (.bool (l == r))
  | l, r => .err (invalid_comparison l r location)

/-- `Value::neq` of `interp.rs`. -/
def Value.neq (self other : Value) (location : Location) : VRes :=
  match self, other with
  | .bool l, .bool r => .ok (.bool (l != r))
  | .str l, .str r => .ok (.bool (l != r))
  | .int l, .int r => .ok (.bool (l != r))
  | l, r => .err (invalid_comparison l r location)

/-- `Value::lt` of `interp.rs`. -/
def Value.lt (self other : Value) (location : Location) : VRes :=
  match self, other with
  | .bool l, .bool r => .ok (.bool (boolLt l r))
  | .str l, .str r => .ok (.bool (strLt l r))
  | .int l, .int r => .ok (.bool (decide (l < r)))
  | l, r => .err (invalid_comparison l r location)

/-- `Value::lte` of `interp.rs`. -/
def Value.lte (self other : Value) (location : Location) : VRes :=
  match self, other with
  | .bool l, .bool r => .ok (.bool (boolLe l r))
  | .str l, .str r => .ok (.bool (strLe l r))
  | .int l, .int r => .ok (.bool (decide (l ≤ r)))
  | l, r => .err (invalid_comparison l r location)

/-- `Value::gt` of `interp.rs`. -/
def Value.gt (self other : Value) (location : Location) : VRes :=
  match self, other with
  | .bool l, .bool r => .ok (.bool (boolLt r l))
  | .str l, .str r => .ok (.bool (strLt r l))
  | .int l, .int r => .ok (.bool (decide (r < l)))
  | l, r => .err (invalid_comparison l r location)

/-- `Value::gte` of `interp.rs`. -/
def Value.gte (self other : Value) (location : Location) : VRes :=
  match self, other with
  | .bool l, .bool r => .ok (.bool (boolLe r l))
  | .str l, .str r => .ok (.bool (strLe r l))
  | .int l, .int r => .ok (.bool (decide (r ≤ l)))
  | l, r => .err (invalid_comparison l r location)

/-- `Value::and` of `interp.rs` (both sides already evaluated). -/
def Value.and (self other : Value) (location : Location) : VRes :=
  match self, other with
  | .bool l, .bool r => .ok (.bool (l && r))
  | _, _ => .err ⟨"invalid binary operation",
      "only booleans can be used on short-circuit operations", location⟩

/-- `Value::or` of `interp.rs`. -/
def Value.or (self other : Value) (location : Location) : VRes :=
  match self, other with
  | .bool l, .bool r => .ok (.bool (l || r))
  | _, _ => .err ⟨"invalid binary operation",
      "only booleans can be used on short-circuit operations", location⟩

/-- `Value::add` of `interp.rs`: only `Int + Int` succeeds; string operands
are rejected with "invalid numeric operation". -/
def Value.add (self other : Value) (location : Location) : VRes :=
  match self, other with
  | .int l, .int r => .ok (.int (l + r))
  | .str _, .str _ => .err ⟨"invalid numeric operation", "strings cannot be added", location⟩
  | .bool _, .bool _ => .err ⟨"invalid numeric operation", "booleans cannot be added", location⟩
  | .closure _ _ _ _, .closure _ _ _ _ =>
      .err ⟨"invalid numeric operation", "closures cannot be added", location⟩
  | _, _ => .err ⟨"invalid numeric operation",
      "different types cannot be used on the same operation", location⟩

/-- `Value::sub` of `interp.rs`. -/
def Value.sub (self other : Value) (location : Location) : VRes :=
  match self, other with
  | .int l, .int r => .ok (.int (l - r))
  | .str _, .str _ => .err ⟨"invalid numeric operation", "strings cannot be subtracted", location⟩
  | .bool _, .bool _ => .err ⟨"invalid numeric operation", "booleans cannot be subtracted", location⟩
  | .closure _ _ _ _, .closure _ _ _ _ =>
      .err ⟨"invalid numeric operation", "closures cannot be subtracted", location⟩
  | _, _ => .err ⟨"invalid numeric operation",
      "different types cannot be used on the same operation", location⟩

/-- `Value::mul` of `interp.rs`.  Note: the source computes `l_int - r_int`
on the `Int`-`Int` arm (interp.rs line 220), i.e. a subtraction, not a
product; the embedding mirrors that. -/
def Value.mul (self other : Value) (location : Location) : VRes :=
  match self, other with
  | .int l, .int r => .ok (.int (l - r))
  | .str _, .str _ => .err ⟨"invalid numeric operation", "strings cannot be multiplied", location⟩
  | .bool _, .bool _ => .err ⟨"invalid numeric operation", "booleans cannot be multiplied", location⟩
  | .closure _ _ _ _, .closure _ _ _ _ =>
      .err ⟨"invalid numeric operation", "closures cannot be multiplied", location⟩
  | _, _ => .err ⟨"invalid numeric operation",
      "different types cannot be used on the same operation", location⟩

/-- `Value::div` of `interp.rs`: the `Int`-`Int` arm is an unguarded Rust
`l_int / r_int`, which truncates toward zero and panics when the divisor is
`0`; the panic is modelled as `crash`. -/
def Value.div (self other : Value) (location : Location) : VRes :=
  match self, other with
  | .int l, .int r =>
      if r = 0 then .crash "attempt to divide by zero" else .ok (.int (Int.tdiv l r))
  | .str _, .str _ => .err ⟨"invalid numeric operation", "strings cannot be divided", location⟩
  | .bool _, .bool _ => .err ⟨"invalid numeric operation", "booleans cannot be divided", location⟩
  | .closure _ _ _ _, .closure _ _ _ _ =>
      .err ⟨"invalid numeric operation", "closures cannot be divided", location⟩
  | _, _ => .err ⟨"invalid numeric operation",
      "different types cannot be used on the same operation", location⟩

/-- `Value::rem` of `interp.rs`.  Note: the source computes `l_int / r_int`
on the `Int`-`Int` arm (interp.rs line 272), i.e. a division rather than a
remainder, again unguarded against a zero divisor. -/
def Value.rem (self other : Value) (location : Location) : VRes :=
  match self, other with
  | .int l, .int r =>
      if r = 0 then .crash "attempt to divide by zero" else .ok (.int (Int.tdiv l r))
  | .str _, .str _ => .err ⟨"invalid numeric operation", "strings cannot be used with rem", location⟩
  | .bool _, .bool _ => .err ⟨"invalid numeric operation", "booleans cannot be used with rem", location⟩
  | .closure _ _ _ _, .closure _ _ _ _ =>
      .err ⟨"invalid numeric operation", "closures cannot be used with rem", location⟩
  | _, _ => .err ⟨"invalid numeric operation",
      "different types cannot be used on the same operation", location⟩

/-- Result of an evaluation step in `interp.rs`: a value together with the
state after the step, a runtime error (the state records output already
written before the failure), a Rust panic, or fuel exhaustion. -/
inductive Res (α : Type) where
  | ok (a : α) (s : St)
  | err (e : RuntimeError) (s : St)
  | crash (msg : String) (s : St)
  | timeout

/-- Sequencing for `Res`, mirroring the `?` operator: errors, panics and
timeouts propagate. -/
def Res.bind {α β : Type} : Res α → (α → St → Res β) → Res β
  | .ok a s, k => k a s
  | .err e s, _ => .err e s
  | .crash m s, _ => .crash m s
  | .timeout, _ => .timeout

/-- Lift an operator outcome into an evaluation outcome at state `s`. -/
def VRes.toRes (r : VRes) (s : St) : Res Value :=
  match r with
  | .ok v => .ok v s
  | .err e => .err e s
  | .crash m => .crash m s

/-- The recursive-evaluation callback handed to the per-node rules (the
Rust functions call `eval` directly; fuel is threaded on the Lean side). -/
abbrev EvalF := Term → Context → St → Res Value

/-- `is_pure` of `interp.rs`: recurses only through `Function` wrappers;
a `Print` at the top is impure, every other node is considered pure
without looking inside. -/
def is_pure : Term → Bool
  | .function _ value _ => is_pure value
  | .print _ _ => false
  | _ => true

/-- `eval_let` of `interp.rs`: evaluate the bound term, extend the current
environment, evaluate the body.  The closure's captured environment is not
touched. -/
def eval_let (evalF : EvalF) (name : String) (value next : Term)
    (context : Context) (st : St) : Res Value :=
  (evalF value context st).bind fun v st =>
    evalF next (update context name v) st

/-- `eval_function` of `interp.rs`: build a closure capturing the current
environment and the statically computed purity flag. -/
def eval_function (parameters : List String) (body : Term)
    (context : Context) (st : St) : Res Value :=
  .ok (.closure parameters body context (is_pure body)) st

/-- `update_context` of `interp.rs`: overlay parameter bindings onto the
frame environment, failing with "invalid arguments" when the two lists run
out at different times; the reported counts are those of the remaining
suffixes, exactly as in the source. -/
def update_context : List String → List Value → Context → Location →
    Except RuntimeError Context
  | [], [], acc, _ => .ok acc
  | [parameter], [argument], acc, _ => .ok (update acc parameter argument)
  | parameter :: parameters, argument :: arguments, acc, location =>
      update_context parameters arguments (update acc parameter argument) location
  | parameters, arguments, _, location =>
      .error ⟨"invalid arguments",
        "expecting " ++ toString parameters.length ++ " arguments but got "
          ++ toString arguments.length, location⟩

/-- `eval_arguments` of `interp.rs`: evaluate the argument terms left to
right, accumulating their values. -/
def eval_arguments (evalF : EvalF) : List Term → List Value → Context → St →
    Res (List Value)
  | [], acc, _, st => .ok acc st
  | argument :: arguments, acc, context, st =>
      (evalF argument context st).bind fun v st =>
        eval_arguments evalF arguments (acc ++ [v]) context st

/-- `eval_body` of `interp.rs`: evaluates the closure body directly; the
argument values and the cache are ignored (the memoization marked TODO in
the source is not implemented, and `cache_key` is never called). -/
def eval_body (evalF : EvalF) (body : Term) (_arguments : List Value)
    (context : Context) (st : St) : Res Value :=
  evalF body context st

/-- `eval_call` of `interp.rs`: evaluate the callee, overlay the captured
environment on the caller's (captured side wins), evaluate the arguments in
that union, bind the parameters, then evaluate the body. -/
def eval_call (evalF : EvalF) (callee : Term) (arguments : List Term)
    (location : Location) (context : Context) (st : St) : Res Value :=
  (evalF callee context st).bind fun v st =>
    match v with
    | .closure parameters body cctx _ =>
      let context := union cctx context
      (eval_arguments evalF arguments [] context st).bind fun args st =>
        match update_context parameters args context location with
        | .ok context => eval_body evalF body args context st
        | .error e => .err e st
    | value => .err ⟨"invalid function call",
        value.display ++ " cannot be called as a function", location⟩ st

/-- `eval_if` of `interp.rs`: a non-boolean condition is an error at the
condition's location; exactly one branch is evaluated. -/
def eval_if (evalF : EvalF) (condition thenT otherwise : Term)
    (context : Context) (st : St) : Res Value :=
  (evalF condition context st).bind fun v st =>
    match v with
    | .bool true => evalF thenT context st
    | .bool false => evalF otherwise context st
    | v => .err ⟨"invalid if condition",
        v.display ++ " can\x27t be used as an if condition. use a boolean instead",
        condition.location⟩ st

/-- `eval_binary` of `interp.rs`: both operands are always evaluated, left
first, then the operator is dispatched with the left operand's location. -/
def eval_binary (evalF : EvalF) (lhs : Term) (op : BinaryOp) (rhs : Term)
    (context : Context) (st : St) : Res Value :=
  (evalF lhs context st).bind fun l st =>
    (evalF rhs context st).bind fun r st =>
      (match op with
       | .eq => l.eq r lhs.location
       | .neq => l.neq r lhs.location
       | .lt => l.lt r lhs.location
       | .lte => l.lte r lhs.location
       | .gt => l.gt r lhs.location
       | .gte => l.gte r lhs.location
       | .and => l.and r lhs.location
       | .or => l.or r lhs.location
       | .add => l.add r lhs.location
       | .sub => l.sub r lhs.location
       | .mul => l.mul r lhs.location
       | .div => l.div r lhs.location
       | .rem => l.rem r lhs.location).toRes st

/-- `eval_var` of `interp.rs`: lookup, or an "unbound variable" error whose
message quotes the name. -/
def eval_var (text : String) (location : Location) (context : Context)
    (st : St) : Res Value :=
  match lookup context text with
  | some v => .ok v st
  | none => .err ⟨"unbound variable \"" ++ text ++ "\"",
      "variable \"" ++ text ++ "\" was not defined in the current scope",
      location⟩ st

/-- `eval_tuple` of `interp.rs`: first component before second. -/
def eval_tuple (evalF : EvalF) (firstT secondT : Term) (context : Context)
    (st : St) : Res Value :=
  (evalF firstT context st).bind fun a st =>
    (evalF secondT context st).bind fun b st =>
      .ok (.tuple a b) st

/-- `eval_first` of `interp.rs`. -/
def eval_first (evalF : EvalF) (value : Term) (location : Location)
    (context : Context) (st : St) : Res Value :=
  (evalF value context st).bind fun v st =>
    match v with
    | .tuple a _ => .ok a st
    | _ => .err ⟨"invalid expression",
        "cannot use first operation from anything but a tuple", location⟩ st

/-- `eval_second` of `interp.rs`. -/
def eval_second (evalF : EvalF) (value : Term) (location : Location)
    (context : Context) (st : St) : Res Value :=
  (evalF value context st).bind fun v st =>
    match v with
    | .tuple _ b => .ok b st
    | _ => .err ⟨"invalid expression",
        "cannot use second operation from anything but a tuple", location⟩ st

/-- `eval_print` of `interp.rs`: write the display form as one output line
and return `Unit` (not the printed value). -/
def eval_print (evalF : EvalF) (value : Term) (context : Context)
    (st : St) : Res Value :=
  (evalF value context st).bind fun v st =>
    .ok .unit { st with output := st.output ++ [v.display] }

/-- The evaluator of `interp.rs`, fuel-indexed: each recursive step spends
one unit of fuel; a program that runs out of fuel yields `timeout`. -/
def eval : Nat → Term → Context → St → Res Value
  | 0, _, _, _ => .timeout
  | fuel + 1, term, context, st =>
    match term with
    | .let_ name value next _ => eval_let (eval fuel) name value next context st
    | .int i _ => .ok (.int i) st
    | .str s _ => .ok (.str s) st
    | .bool b _ => .ok (.bool b) st
    | .function parameters body _ => eval_function parameters body context st
    | .call callee arguments location => eval_call (eval fuel) callee arguments location context st
    | .if_ condition thenT otherwise _ => eval_if (eval fuel) condition thenT otherwise context st
    | .binary lhs op rhs _ => eval_binary (eval fuel) lhs op rhs context st
    | .var text location => eval_var text location context st
    | .tuple a b _ => eval_tuple (eval fuel) a b context st
    | .first value location => eval_first (eval fuel) value location context st
    | .second value location => eval_second (eval fuel) value location context st
    | .print value _ => eval_print (eval fuel) value context st

/-- `eval_file` of `interp.rs`: run the program in an empty environment with
an empty cache and no output written yet. -/
def eval_file (fuel : Nat) (expression : Term) : Res Value :=
  eval fuel expression [] ⟨[], []⟩

end Interp

namespace Interpreter

/-- Runtime values of `interpreter.rs`: a closure holds the parameter names,
the body and a reference to its captured environment cell
(`Rc<RefCell<Context>>`), modelled as an index into an explicit store. -/
inductive Value where
  | closure (parameters : List String) (body : Term) (context : Nat)
  | int (value : Int)
  | str (value : String)
  | bool (value : Bool)
  | tuple (firstV : Value) (secondV : Value)

/-- The `Display` implementation of `interpreter.rs`. -/
def Value.display : Value → String
  | .closure _ _ _ => "[closure]"
  | .int i => toString i
  | .str s => s
  | .bool b => toString b
  | .tuple a b => "(" ++ a.display ++ ", " ++ b.display ++ ")"

/-- Environments (`Context = std HashMap<String, Value>`), modelled as
association lists whose lookup takes the first matching binding. -/
abbrev Ctx := List (String × Value)

/-- `HashMap::get`. -/
def lookup : Ctx → String → Option Value
  | [], _ => none
  | (k, v) :: rest, name => if k = name then some v else lookup rest name

/-- `HashMap::insert` (insert-or-replace); prepending is lookup-equivalent. -/
def insert (context : Ctx) (name : String) (value : Value) : Ctx :=
  (name, value) :: context

/-- Mutable collaborators of `interpreter.rs`: the store of environment
cells referenced by closures, and the lines written to stdout.  (The `Cache`
is also threaded in the source but never read or written; it is omitted from
the state here because no rule touches it.) -/
structure St where
  store : List Ctx
  output : List String

/-- Result of an `interpreter.rs` evaluation step: the payload also carries
the caller's environment, which the rules mutate in place (`&mut Context`). -/
inductive Res (α : Type) where
  | ok (a : α) (s : St)
  | err (e : RuntimeError) (s : St)
  | timeout

/-- Sequencing for `Interpreter.Res`, mirroring the `?` operator. -/
def Res.bind {α β : Type} : Res α → (α → St → Res β) → Res β
  | .ok a s, k => k a s
  | .err e s, _ => .err e s
  | .timeout, _ => .timeout

/-- `invalid_comparison` helper of `binary.rs`. -/
def invalid_comparison (l r : Value) (location : Location) : RuntimeError :=
  ⟨"invalid comparison", l.display ++ " and " ++ r.display ++ " cannot be compared", location⟩

/-- `Value::eq` of `binary.rs`. -/
def Value.eq (self other : Value) (location : Location) : Except RuntimeError Value :=
  match self, other with
  | .bool l, .bool r => .ok (.bool (l == r))
  | .str l, .str r => .ok (.bool (l == r))
  | .int l, .int r => .ok (.bool (l == r))
  | l, r => .error (invalid_comparison l r location)

/-- `Value::neq` of `binary.rs`. -/
def Value.neq (self other : Value) (location : Location) : Except RuntimeError Value :=
  match self, other with
  | .bool l, .bool r => .ok (.bool (l != r))
  | .str l, .str r => .ok (.bool (l != r))
  | .int l, .int r => .ok (.bool (l != r))
  | l, r => .error (invalid_comparison l r location)

/-- `Value::lt` of `binary.rs`. -/
def Value.lt (self other : Value) (location : Location) : Except RuntimeError Value :=
  match self, other with
  | .bool l, .bool r => .ok (.bool (boolLt l r))
  | .str l, .str r => .ok (.bool (strLt l r))
  | .int l, .int r => .ok (.bool (decide (l < r)))
  | l, r => .error (invalid_comparison l r location)

/-- `Value::lte` of `binary.rs`. -/
def Value.lte (self other : Value) (location : Location) : Except RuntimeError Value :=
  match self, other with
  | .bool l, .bool r => .ok (.bool (boolLe l r))
  | .str l, .str r => .ok (.bool (strLe l r))
  | .int l, .int r => .ok (.bool (decide (l ≤ r)))
  | l, r => .error (invalid_comparison l r location)

/-- `Value::gt` of `binary.rs`. -/
def Value.gt (self other : Value) (location : Location) : Except RuntimeError Value :=
  match self, other with
  | .bool l, .bool r => .ok (.bool (boolLt r l))
  | .str l, .str r => .ok (.bool (strLt r l))
  | .int l, .int r => .ok (.bool (decide (r < l)))
  | l, r => .error (invalid_comparison l r location)

/-- `Value::gte` of `binary.rs`. -/
def Value.gte (self other : Value) (location : Location) : Except RuntimeError Value :=
  match self, other with
  | .bool l, .bool r => .ok (.bool (boolLe r l))
  | .str l, .str r => .ok (.bool (strLe r l))
  | .int l, .int r => .ok (.bool (decide (r ≤ l)))
  | l, r => .error (invalid_comparison l r location)

/-- `Value::and` of `binary.rs`. -/
def Value.and (self other : Value) (location : Location) : Except RuntimeError Value :=
  match self, other with
  | .bool l, .bool r => .ok (.bool (l && r))
  | _, _ => .error ⟨"invalid AND operation",
      "only booleans can be used on short-circuit operations", location⟩

/-- `Value::or` of `binary.rs`. -/
def Value.or (self other : Value) (location : Location) : Except RuntimeError Value :=
  match self, other with
  | .bool l, .bool r => .ok (.bool (l || r))
  | _, _ => .error ⟨"invalid OR operation",
      "only booleans can be used on short-circuit operations", location⟩

/-- `Value::add` of `binary.rs`: integer sum, string concatenation, and
mixed string-integer concatenation with the integer rendered in decimal. -/
def Value.add (self other : Value) (location : Location) : Except RuntimeError Value :=
  match self, other with
  | .int l, .int r => .ok (.int (l + r))
  | .str l, .str r => .ok (.str (l ++ r))
  | .str l, .int r => .ok (.str (l ++ toString r))
  | .int l, .str r => .ok (.str (toString l ++ r))
  | l, r => .error ⟨"invalid addition",
      l.display ++ " cannot be added to " ++ r.display, location⟩

/-- `Value::sub` of `binary.rs`. -/
def Value.sub (self other : Value) (location : Location) : Except RuntimeError Value :=
  match self, other with
  | .int l, .int r => .ok (.int (l - r))
  | l, r => .error ⟨"invalid subtraction",
      l.display ++ " cannot be subtracted by " ++ r.display, location⟩

/-- `Value::mul` of `binary.rs`: the product (the trailing space in the
detail string is in the source). -/
def Value.mul (self other : Value) (location : Location) : Except RuntimeError Value :=
  match self, other with
  | .int l, .int r => .ok (.int (l * r))
  | l, r => .error ⟨"invalid multiplication",
      l.display ++ " cannot be multiplied by " ++ r.display ++ " ", location⟩

/-- `Value::div` of `binary.rs`: a zero divisor is caught first and reported
as "division by zero"; otherwise Rust division truncates toward zero. -/
def Value.div (self other : Value) (location : Location) : Except RuntimeError Value :=
  match self, other with
  | .int _, .int 0 => .error ⟨"division by zero", "zero cannot be divised", location⟩
  | .int l, .int r => .ok (.int (Int.tdiv l r))
  | l, r => .error ⟨"invalid division",
      l.display ++ " cannot be divised by " ++ r.display, location⟩

/-- `Value::rem` of `binary.rs`: a zero divisor is caught first; otherwise
Rust `%`, whose result takes the sign of the dividend. -/
def Value.rem (self other : Value) (location : Location) : Except RuntimeError Value :=
  match self, other with
  | .int _, .int 0 => .error ⟨"division by zero",
      "cannot get remainder from a zero division", location⟩
  | .int l, .int r => .ok (.int (Int.tmod l r))
  | l, r => .error ⟨"invalid remainder operation",
      "cannot get remainder from " ++ l.display ++ " and " ++ r.display ++ " division",
      location⟩

/-- `Value::binary_op` of `binary.rs`: dispatch on the operator tag, always
passing the left operand's location. -/
def Value.binary_op (self : Value) (op : BinaryOp) (rhs : Value)
    (lhsLocation : Location) : Except RuntimeError Value :=
  match op with
  | .eq => self.eq rhs lhsLocation
  | .neq => self.neq rhs lhsLocation
  | .lt => self.lt rhs lhsLocation
  | .lte => self.lte rhs lhsLocation
  | .gt => self.gt rhs lhsLocation
  | .gte => self.gte rhs lhsLocation
  | .and => self.and rhs lhsLocation
  | .or => self.or rhs lhsLocation
  | .add => self.add rhs lhsLocation
  | .sub => self.sub rhs lhsLocation
  | .mul => self.mul rhs lhsLocation
  | .div => self.div rhs lhsLocation
  | .rem => self.rem rhs lhsLocation

/-- The recursive-evaluation callback for `interpreter.rs`: every step
returns the value together with the caller's (possibly mutated) context. -/
abbrev EvalF := Term → Ctx → St → Res (Value × Ctx)

/-- `eval_let` of `interpreter.rs`: when the bound value is a closure, a
self-copy is inserted both into the closure's own captured environment cell
and into the caller's context; otherwise the value is inserted into the
caller's context.  In both cases the insertion mutates the caller's
environment in place (the binding is not removed after the body). -/
def eval_let (evalF : EvalF) (name : String) (value next : Term)
    (context : Ctx) (st : St) : Res (Value × Ctx) :=
  (evalF value context st).bind fun (v, context) st =>
    match v with
    | .closure parameters body r =>
      let self := Value.closure parameters body r
      let st := { st with store := st.store.set r (insert (st.store.getD r []) name self) }
      evalF next (insert context name self) st
    | v => evalF next (insert context name v) st

/-- `eval_function` of `interpreter.rs`: allocate a fresh environment cell
holding a snapshot of the current context and return a closure pointing at
it. -/
def eval_function (parameters : List String) (body : Term) (context : Ctx)
    (st : St) : Res (Value × Ctx) :=
  .ok (.closure parameters body st.store.length, context)
    { st with store := st.store ++ [context] }

/-- The argument loop of `eval_call` in `interpreter.rs`: iterate over
`parameters.zip(arguments)` — the zip silently stops at the shorter list, so
no arity check happens; each argument is evaluated in the caller's context
and bound into the frame context. -/
def eval_call_args (evalF : EvalF) : List String → List Term → Ctx → Ctx → St →
    Res (Ctx × Ctx)
  | parameter :: parameters, argument :: arguments, frame, context, st =>
      (evalF argument context st).bind fun (v, context) st =>
        eval_call_args evalF parameters arguments (insert frame parameter v) context st
  | _, _, frame, context, st => .ok (frame, context) st

/-- `eval_call` of `interpreter.rs`: clone the closure's captured cell into
a frame context, bind zipped parameters, evaluate the body in the frame
(mutations of the frame are discarded; mutations of the store and output
persist). -/
def eval_call (evalF : EvalF) (callee : Term) (arguments : List Term)
    (location : Location) (context : Ctx) (st : St) : Res (Value × Ctx) :=
  (evalF callee context st).bind fun (v, context) st =>
    match v with
    | .closure parameters body r =>
      let frame := st.store.getD r []
      (eval_call_args evalF parameters arguments frame context st).bind
        fun (frame, context) st =>
          (evalF body frame st).bind fun (bv, _) st =>
            .ok (bv, context) st
    | value => .err ⟨"invalid function call",
        value.display ++ " cannot be called as a function", location⟩ st

/-- `eval_if` of `interpreter.rs`. -/
def eval_if (evalF : EvalF) (condition thenT otherwise : Term)
    (context : Ctx) (st : St) : Res (Value × Ctx) :=
  (evalF condition context st).bind fun (v, context) st =>
    match v with
    | .bool true => evalF thenT context st
    | .bool false => evalF otherwise context st
    | v => .err ⟨"invalid if condition",
        v.display ++ " can\x27t be used as an if condition. use a boolean instead",
        condition.location⟩ st

/-- `eval_binary` of `interpreter.rs`: evaluate left then right (always
both), then dispatch through `binary.rs` with the left operand's location. -/
def eval_binary (evalF : EvalF) (lhs : Term) (op : BinaryOp) (rhs : Term)
    (context : Ctx) (st : St) : Res (Value × Ctx) :=
  (evalF lhs context st).bind fun (l, context) st =>
    (evalF rhs context st).bind fun (r, context) st =>
      match Value.binary_op l op r lhs.location with
      | .ok v => .ok (v, context) st
      | .error e => .err e st

/-- `eval_var` of `interpreter.rs`. -/
def eval_var (text : String) (location : Location) (context : Ctx)
    (st : St) : Res (Value × Ctx) :=
  match lookup context text with
  | some v => .ok (v, context) st
  | none => .err ⟨"unbound variable \"" ++ text ++ "\"",
      "variable \"" ++ text ++ "\" was not defined in the current scope",
      location⟩ st

/-- `eval_tuple` of `interpreter.rs`. -/
def eval_tuple (evalF : EvalF) (firstT secondT : Term) (context : Ctx)
    (st : St) : Res (Value × Ctx) :=
  (evalF firstT context st).bind fun (a, context) st =>
    (evalF secondT context st).bind fun (b, context) st =>
      .ok (.tuple a b, context) st

/-- `eval_first` of `interpreter.rs`. -/
def eval_first (evalF : EvalF) (value : Term) (location : Location)
    (context : Ctx) (st : St) : Res (Value × Ctx) :=
  (evalF value context st).bind fun (v, context) st =>
    match v with
    | .tuple a _ => .ok (a, context) st
    | _ => .err ⟨"invalid expression",
        "cannot use first operation from anything but a tuple", location⟩ st

/-- `eval_second` of `interpreter.rs`. -/
def eval_second (evalF : EvalF) (value : Term) (location : Location)
    (context : Ctx) (st : St) : Res (Value × Ctx) :=
  (evalF value context st).bind fun (v, context) st =>
    match v with
    | .tuple _ b => .ok (b, context) st
    | _ => .err ⟨"invalid expression",
        "cannot use second operation from anything but a tuple", location⟩ st

/-- `eval_print` of `interpreter.rs`: write the display form as one output
line and return the printed value itself. -/
def eval_print (evalF : EvalF) (value : Term) (context : Ctx)
    (st : St) : Res (Value × Ctx) :=
  (evalF value context st).bind fun (v, context) st =>
    .ok (v, context) { st with output := st.output ++ [v.display] }

/-- The evaluator of `interpreter.rs`, fuel-indexed. -/
def eval : Nat → Term → Ctx → St → Res (Value × Ctx)
  | 0, _, _, _ => .timeout
  | fuel + 1, term, context, st =>
    match term with
    | .let_ name value next _ => eval_let (eval fuel) name value next context st
    | .int i _ => .ok (.int i, context) st
    | .str s _ => .ok (.str s, context) st
    | .bool b _ => .ok (.bool b, context) st
    | .function parameters body _ => eval_function parameters body context st
    | .call callee arguments location => eval_call (eval fuel) callee arguments location context st
    | .if_ condition thenT otherwise _ => eval_if (eval fuel) condition thenT otherwise context st
    | .binary lhs op rhs _ => eval_binary (eval fuel) lhs op rhs context st
    | .var text location => eval_var text location context st
    | .tuple a b _ => eval_tuple (eval fuel) a b context st
    | .first value location => eval_first (eval fuel) value location context st
    | .second value location => eval_second (eval fuel) value location context st
    | .print value _ => eval_print (eval fuel) value context st

end Interpreter

/-- A predicate stating that an `interp.rs` evaluation outcome left the
memoization cache exactly as it was (`c` is the cache before the step). -/
def Interp.cacheUntouched {α : Type} (c : Interp.Cache) : Interp.Res α → Prop
  | .ok _ s => s.cache = c
  | .err _ s => s.cache = c
  | .crash _ s => s.cache = c
  | .timeout => True

/-- A concrete test location, mirroring the one used by the repository's
unit tests. -/
def tloc : Location := ⟨0, 0, "tests"⟩

/-- Location of a left operand in the concrete division programs. -/
def locA : Location := ⟨1, 3, "tests"⟩

/-- Location of a right operand in the concrete division programs. -/
def locB : Location := ⟨5, 6, "tests"⟩

/-- Location of an enclosing call or binary node in the concrete programs. -/
def locC : Location := ⟨1, 6, "tests"⟩

/-- Reading the freshly appended cell of a store. -/
theorem getD_append_length {α : Type} (l : List α) (a d : α) :
    (l ++ [a]).getD l.length d = a := by
  induction l with
  | nil => rfl
  | cons x xs ih => exact ih

/-- Reading a store cell right after overwriting it. -/
theorem getD_set_length_lt {α : Type} :
    ∀ (l : List α) (r : Nat) (x d : α), r < l.length → (l.set r x).getD r d = x := by
  intro l
  induction l with
  | nil => intro r x d h; exact absurd h (Nat.not_lt_zero r)
  | cons y ys ih =>
    intro r x d h
    cases r with
    | zero => rfl
    | succ r => exact ih r x d (Nat.lt_of_succ_lt_succ h)

/-- C1 (counterexample).  In `interp.rs`, `Let` does not insert the binder
into the closure's captured environment: binding `f` to a closure and
returning `f` yields a closure whose captured context is still the empty
environment, in which `f` does not resolve at all. -/
theorem interp_let_no_self_reference :
    Interp.eval 9 (.let_ "f" (.function [] (.int 1 tloc) tloc) (.var "f" tloc) tloc)
        [] ⟨[], []⟩
      = .ok (.closure [] (.int 1 tloc) [] true) ⟨[], []⟩
    ∧ Interp.lookup [] "f" = none :=
  ⟨rfl, rfl⟩

/-- C1 (amended).  In `interpreter.rs`, evaluating `Let(name, Function(ps, b),
next)` proceeds by evaluating `next` in the caller's environment extended
with `name ↦ closure`, in a store whose freshly allocated cell — the
closure's own captured environment — maps `name` to that same closure, so a
`Let`-bound function can call itself by its binder name. -/
theorem interpreter_let_self_reference (fuel : Nat) (name : String)
    (ps : List String) (b next : Term) (lf l : Location)
    (ctx : Interpreter.Ctx) (st : Interpreter.St) :
    Interpreter.eval (fuel + 1 + 1) (.let_ name (.function ps b lf) next l) ctx st
      = Interpreter.eval (fuel + 1) next
          (Interpreter.insert ctx name (.closure ps b st.store.length))
          ⟨(st.store ++ [ctx]).set st.store.length
             (Interpreter.insert ctx name (.closure ps b st.store.length)), st.output⟩
    ∧ Interpreter.lookup
        (((st.store ++ [ctx]).set st.store.length
           (Interpreter.insert ctx name (.closure ps b st.store.length))).getD
          st.store.length [])
        name
      = some (.closure ps b st.store.length) := by
  constructor
  · simp only [Interpreter.eval, Interpreter.eval_let, Interpreter.eval_function,
      Interpreter.Res.bind]
    rw [getD_append_length]
  · rw [getD_set_length_lt _ _ _ _ (by simp)]
    simp [Interpreter.lookup, Interpreter.insert]

/-- C2 (counterexample).  In `interpreter.rs`, `eval_let` inserts the binding
into the caller's environment in place and never removes it, so a sibling
subterm evaluated afterwards observes the mutation: in
`(let x = 1 in 0) + x` the right operand sees `x = 1` and the program
evaluates to `1` instead of failing with an unbound variable. -/
theorem interpreter_let_leaks_to_sibling :
    Interpreter.eval 9
        (.binary (.let_ "x" (.int 1 tloc) (.int 0 tloc) tloc) .add (.var "x" tloc) tloc)
        [] ⟨[], []⟩
      = .ok (.int 1, [("x", .int 1)]) ⟨[], []⟩ :=
  rfl

/-- C2 (amended).  In `interp.rs`, environments are persistent and a `Let`
binding is scoped to its body: the same sibling program fails with an
unbound-variable error on the right operand. -/
theorem interp_let_scoped_to_body :
    Interp.eval 9
        (.binary (.let_ "x" (.int 1 tloc) (.int 0 tloc) tloc) .add (.var "x" tloc) tloc)
        [] ⟨[], []⟩
      = .err ⟨"unbound variable \"x\"",
          "variable \"x\" was not defined in the current scope", tloc⟩ ⟨[], []⟩ :=
  rfl

/-- C3 (code bug).  The `Int`-`Int` arm of `Value::mul` in `interp.rs`
computes a subtraction (`2 * 3` yields `-1`) and the `Int`-`Int` arm of its
`Value::rem` computes a division (`7 rem 2` yields `3`), while the
`binary.rs` operator engine — whose unit tests the repository ships —
computes the product, the truncated quotient and the remainder as the spec
states. -/
theorem interp_mul_rem_wrong_operation :
    Interp.Value.mul (.int 2) (.int 3) tloc = .ok (.int (-1))
    ∧ Interp.Value.rem (.int 7) (.int 2) tloc = .ok (.int 3)
    ∧ Interpreter.Value.mul (.int 2) (.int 3) tloc = .ok (.int 6)
    ∧ Interpreter.Value.rem (.int 7) (.int 2) tloc = .ok (.int 1)
    ∧ Interpreter.Value.div (.int (-7)) (.int 2) tloc = .ok (.int (-3))
    ∧ Interpreter.Value.rem (.int (-7)) (.int 2) tloc = .ok (.int (-1)) :=
  ⟨rfl, rfl, rfl, rfl, rfl, rfl⟩

/-- C4 (code bug).  `binary.rs` guards `Div`/`Rem` against a zero divisor
and reports "division by zero" at the left operand's location, but
`interp.rs` performs the raw Rust division with no guard: `10 / 0` and
`10 rem 0` panic (modelled as `crash`), aborting the process below the
error-reporting layer instead of producing a `RuntimeError`. -/
theorem div_rem_zero_behavior :
    Interpreter.Value.div (.int 10) (.int 0) locA
      = .error ⟨"division by zero", "zero cannot be divised", locA⟩
    ∧ Interpreter.Value.rem (.int 10) (.int 0) locA
      = .error ⟨"division by zero", "cannot get remainder from a zero division", locA⟩
    ∧ Interpreter.eval 9 (.binary (.int 10 locA) .div (.int 0 locB) locC) [] ⟨[], []⟩
      = .err ⟨"division by zero", "zero cannot be divised", locA⟩ ⟨[], []⟩
    ∧ Interp.Value.div (.int 10) (.int 0) locA = .crash "attempt to divide by zero"
    ∧ Interp.Value.rem (.int 10) (.int 0) locA = .crash "attempt to divide by zero"
    ∧ Interp.eval 9 (.binary (.int 10 locA) .div (.int 0 locB) locC) [] ⟨[], []⟩
      = .crash "attempt to divide by zero" ⟨[], []⟩ :=
  ⟨rfl, rfl, rfl, rfl, rfl, rfl⟩

/-- C5 (counterexample).  `Add` on two strings in `interp.rs` is rejected
with "invalid numeric operation" instead of producing the concatenation. -/
theorem interp_add_strings_rejected :
    Interp.Value.add (.str "a") (.str "b") tloc
      = .err ⟨"invalid numeric operation", "strings cannot be added", tloc⟩
    ∧ Interp.Value.add (.str "a") (.str "b") tloc ≠ .ok (.str "ab") :=
  ⟨rfl, fun h => nomatch h⟩

/-- C5 (amended).  In the `binary.rs` operator engine, `Add` returns the
integer sum on `Int`-`Int`, the concatenation on `Str`-`Str`, and on mixed
`Str`-`Int` / `Int`-`Str` pairs the concatenation with the integer rendered
in decimal; the `interp.rs` variant instead rejects string operands. -/
theorem binary_add_table (i j : Int) (s t : String) (l : Location) :
    Interpreter.Value.add (.int i) (.int j) l = .ok (.int (i + j))
    ∧ Interpreter.Value.add (.str s) (.str t) l = .ok (.str (s ++ t))
    ∧ Interpreter.Value.add (.str s) (.int i) l = .ok (.str (s ++ toString i))
    ∧ Interpreter.Value.add (.int i) (.str s) l = .ok (.str (toString i ++ s))
    ∧ Interp.Value.add (.str s) (.str t) l
      = .err ⟨"invalid numeric operation", "strings cannot be added", l⟩ :=
  ⟨rfl, rfl, rfl, rfl, rfl⟩

/-- One step of `update_context` on two non-empty lists consumes one
parameter-argument pair (the singleton arm of the source produces the same
result as one more recursive step). -/
theorem update_context_cons (p : String) (a : Interp.Value) (ps : List String)
    (args : List Interp.Value) (acc : Interp.Context) (l : Location) :
    Interp.update_context (p :: ps) (a :: args) acc l
      = Interp.update_context ps args (Interp.update acc p a) l := by
  cases ps <;> cases args <;> rfl

/-- C6 (amended, part 1).  Whenever the parameter and argument counts
differ, `update_context` of `interp.rs` fails with an "invalid arguments"
error attributed to the call's location (the detail string reports the
lengths of the remaining suffixes at the point the mismatch is noticed). -/
theorem update_context_arity_mismatch :
    ∀ (ps : List String) (args : List Interp.Value) (acc : Interp.Context)
      (l : Location), ps.length ≠ args.length →
      ∃ ft, Interp.update_context ps args acc l = .error ⟨"invalid arguments", ft, l⟩ := by
  intro ps
  induction ps with
  | nil =>
    intro args acc l h
    cases args with
    | nil => exact absurd rfl h
    | cons a args => exact ⟨_, rfl⟩
  | cons p ps ih =>
    intro args acc l h
    cases args with
    | nil =>
      cases ps with
      | nil => exact ⟨_, rfl⟩
      | cons p2 ps2 => exact ⟨_, rfl⟩
    | cons a args =>
      rw [update_context_cons]
      exact ih args (Interp.update acc p a) l (by simpa using h)

/-- Witness for `update_context_arity_mismatch` at a concrete mismatch. -/
theorem update_context_arity_mismatch_witness :
    ([] : List String).length ≠ [Interp.Value.int 9].length
    ∧ ∃ ft, Interp.update_context [] [Interp.Value.int 9] [] locC
        = .error ⟨"invalid arguments", ft, locC⟩ :=
  ⟨by decide, update_context_arity_mismatch [] [Interp.Value.int 9] [] locC (by decide)⟩

/-- C6 (counterexample).  The arity check of `interp.rs` runs only after all
arguments are evaluated: calling a zero-parameter closure with the single
argument `print(9)` fails with "invalid arguments" at the call's location,
but the output sink already contains the line `9` — an argument side effect
occurred on an arity mismatch. -/
theorem interp_arity_error_after_side_effects :
    Interp.eval 9
        (.call (.function [] (.int 1 tloc) tloc) [.print (.int 9 tloc) tloc] locC)
        [] ⟨[], []⟩
      = .err ⟨"invalid arguments", "expecting 0 arguments but got 1", locC⟩
          ⟨[], ["9"]⟩ :=
  rfl

/-- C7 (counterexample).  In `interp.rs`, `Print(x)` writes the display form
of `x`'s value but evaluates to `Unit`, not to the value itself:
`print(1)` evaluates to `Unit`, with `1` on the output sink. -/
theorem interp_print_returns_unit :
    Interp.eval 9 (.print (.int 1 tloc) tloc) [] ⟨[], []⟩
      = .ok .unit ⟨[], ["1"]⟩
    ∧ (Interp.Res.ok Interp.Value.unit ⟨[], ["1"]⟩ : Interp.Res Interp.Value)
      ≠ .ok (.int 1) ⟨[], ["1"]⟩ :=
  ⟨rfl, by simp⟩

/-- C7 (amended).  In `interpreter.rs`, whenever `x` evaluates to a value,
`Print(x)` appends that value's display form as one output line and
evaluates to the value itself (print is transparent in expression
position). -/
theorem interpreter_print_transparent (fuel : Nat) (x : Term) (l : Location)
    (ctx ctx2 : Interpreter.Ctx) (st st2 : Interpreter.St)
    (v : Interpreter.Value)
    (h : Interpreter.eval fuel x ctx st = .ok (v, ctx2) st2) :
    Interpreter.eval (fuel + 1) (.print x l) ctx st
      = .ok (v, ctx2) { st2 with output := st2.output ++ [v.display] } := by
  simp only [Interpreter.eval, Interpreter.eval_print, h, Interpreter.Res.bind]

/-- Witness for `interpreter_print_transparent` on `print(1)`. -/
theorem interpreter_print_transparent_witness :
    Interpreter.eval 2 (.print (.int 1 tloc) tloc) [] ⟨[], []⟩
      = .ok (.int 1, []) ⟨[], ["1"]⟩ :=
  interpreter_print_transparent 1 (.int 1 tloc) tloc [] [] ⟨[], []⟩ ⟨[], []⟩
    (.int 1) rfl

/-- C8 (counterexample).  `is_pure` of `interp.rs` looks through `Function`
wrappers only: a body whose `Print` sits under an `If` is flagged pure even
though its AST contains a `Print` node. -/
theorem is_pure_misses_nested_print :
    Interp.is_pure (.if_ (.bool true tloc) (.print (.int 1 tloc) tloc) (.int 2 tloc) tloc)
      = true
    ∧ Term.containsPrint
        (.if_ (.bool true tloc) (.print (.int 1 tloc) tloc) (.int 2 tloc) tloc)
      = true :=
  ⟨rfl, rfl⟩

/-- Bodies with no `Print` anywhere are flagged pure by `is_pure`
(recursion through the chain of `Function` wrappers). -/
theorem print_free_is_pure_aux : ∀ t : Term, t.containsPrint = false → Interp.is_pure t = true
  | .function _ v _ => fun h => by
      have hv : v.containsPrint = false := by simpa [Term.containsPrint] using h
      simpa [Interp.is_pure] using print_free_is_pure_aux v hv
  | .print _ _ => fun h => by simp [Term.containsPrint] at h
  | .int _ _ => fun _ => rfl
  | .str _ _ => fun _ => rfl
  | .bool _ _ => fun _ => rfl
  | .var _ _ => fun _ => rfl
  | .let_ _ _ _ _ => fun _ => rfl
  | .call _ _ _ => fun _ => rfl
  | .if_ _ _ _ _ => fun _ => rfl
  | .binary _ _ _ _ => fun _ => rfl
  | .tuple _ _ _ => fun _ => rfl
  | .first _ _ => fun _ => rfl
  | .second _ _ => fun _ => rfl

/-- C8 (amended).  Every truly `Print`-free body is marked purity-eligible
at closure creation, but the flag is one-sided: `is_pure` recurses only
through nested `Function` wrappers, so `Print` nodes under `Let`, `If`,
`Binary`, `Call`, `Tuple` or projections escape detection (see the
counterexample). -/
theorem print_free_implies_is_pure (t : Term) (h : t.containsPrint = false) :
    Interp.is_pure t = true :=
  print_free_is_pure_aux t h

/-- Witness for `print_free_implies_is_pure` on a literal body. -/
theorem print_free_implies_is_pure_witness :
    Term.containsPrint (.int 1 tloc) = false ∧ Interp.is_pure (.int 1 tloc) = true :=
  ⟨rfl, print_free_implies_is_pure (.int 1 tloc) rfl⟩

/-- Sequencing preserves cache-invariance: if the first step leaves the
cache at `c` and the continuation does so from any state whose cache is `c`,
the whole bind leaves the cache at `c`. -/
theorem bind_cacheUntouched {α β : Type} {c : Interp.Cache} {x : Interp.Res α}
    {k : α → Interp.St → Interp.Res β}
    (hx : Interp.cacheUntouched c x)
    (hk : ∀ a s, s.cache = c → Interp.cacheUntouched c (k a s)) :
    Interp.cacheUntouched c (x.bind k) := by
  cases x with
  | ok a s => exact hk a s hx
  | err e s => exact hx
  | crash m s => exact hx
  | timeout => trivial

/-- Lifting an operator outcome never changes the cache. -/
theorem toRes_cacheUntouched {c : Interp.Cache} (r : Interp.VRes)
    (s : Interp.St) (hs : s.cache = c) : Interp.cacheUntouched c (r.toRes s) := by
  cases r <;> exact hs

/-- The argument loop never changes the cache when the evaluation callback
does not. -/
theorem eval_arguments_cache (evalF : Interp.EvalF)
    (H : ∀ t ctx st, Interp.cacheUntouched st.cache (evalF t ctx st)) :
    ∀ (args : List Term) (acc : List Interp.Value) (ctx : Interp.Context)
      (st : Interp.St),
      Interp.cacheUntouched st.cache (Interp.eval_arguments evalF args acc ctx st) := by
  intro args
  induction args with
  | nil => intro acc ctx st; exact rfl
  | cons a args ih =>
    intro acc ctx st
    exact bind_cacheUntouched (H a ctx st) (fun v s hs => hs ▸ ih (acc ++ [v]) ctx s)

/-- No rule of the `interp.rs` evaluator reads or writes the memoization
cache: every outcome carries the cache it started from.  (In the source,
`eval_body` carries the TODO to apply memoization and `cache_key` is never
called.) -/
theorem eval_cache_invariant :
    ∀ (fuel : Nat) (t : Term) (ctx : Interp.Context) (st : Interp.St),
      Interp.cacheUntouched st.cache (Interp.eval fuel t ctx st) := by
  intro fuel
  induction fuel with
  | zero => intro t ctx st; trivial
  | succ fuel ih =>
    intro t ctx st
    cases t with
    | int i l => exact rfl
    | str s l => exact rfl
    | bool b l => exact rfl
    | function ps b l => exact rfl
    | var x l =>
      simp only [Interp.eval, Interp.eval_var]
      cases Interp.lookup ctx x <;> exact rfl
    | let_ n v nx l =>
      simp only [Interp.eval, Interp.eval_let]
      exact bind_cacheUntouched (ih v ctx st)
        (fun a s hs => hs ▸ ih nx (Interp.update ctx n a) s)
    | print v l =>
      simp only [Interp.eval, Interp.eval_print]
      exact bind_cacheUntouched (ih v ctx st) (fun a s hs => hs)
    | tuple a b l =>
      simp only [Interp.eval, Interp.eval_tuple]
      exact bind_cacheUntouched (ih a ctx st) (fun x s hs =>
        bind_cacheUntouched (hs ▸ ih b ctx s) (fun y s2 hs2 => hs2))
    | first v l =>
      simp only [Interp.eval, Interp.eval_first]
      refine bind_cacheUntouched (ih v ctx st) (fun a s hs => ?_)
      cases a <;> exact hs
    | second v l =>
      simp only [Interp.eval, Interp.eval_second]
      refine bind_cacheUntouched (ih v ctx st) (fun a s hs => ?_)
      cases a <;> exact hs
    | if_ c th ot l =>
      simp only [Interp.eval, Interp.eval_if]
      refine bind_cacheUntouched (ih c ctx st) (fun a s hs => ?_)
      cases a with
      | bool b =>
        cases b with
        | false => exact hs ▸ ih ot ctx s
        | true => exact hs ▸ ih th ctx s
      | closure ps bd cc ip => exact hs
      | int i => exact hs
      | str s2 => exact hs
      | tuple x y => exact hs
      | unit => exact hs
    | binary lhs op rhs l =>
      simp only [Interp.eval, Interp.eval_binary]
      refine bind_cacheUntouched (ih lhs ctx st) (fun a s hs => ?_)
      refine bind_cacheUntouched (hs ▸ ih rhs ctx s) (fun b s2 hs2 => ?_)
      exact toRes_cacheUntouched _ s2 hs2
    | call callee args l =>
      simp only [Interp.eval, Interp.eval_call]
      refine bind_cacheUntouched (ih callee ctx st) (fun a s hs => ?_)
      cases a with
      | closure ps body cctx ip =>
        refine bind_cacheUntouched
          (hs ▸ eval_arguments_cache (Interp.eval fuel) ih args []
            (Interp.union cctx ctx) s) (fun args2 s2 hs2 => ?_)
        cases Interp.update_context ps args2 (Interp.union cctx ctx) l with
        | ok ctx2 => exact hs2 ▸ ih body ctx2 s2
        | error e => exact hs2
      | int i => exact hs
      | str s2 => exact hs
      | bool b => exact hs
      | tuple x y => exact hs
      | unit => exact hs

/-- C9 (code bug).  A call of a purity-eligible closure with a
fingerprintable `Int` argument computes its result with the cache left
empty, and in general no evaluation step of `interp.rs` ever reads or
writes the cache: the memoization described by the spec is unimplemented
(`eval_body` ignores the cache and `cache_key` is never invoked). -/
theorem eval_never_touches_cache :
    Interp.eval 9
        (.let_ "f"
          (.function ["x"] (.binary (.var "x" tloc) .add (.int 1 tloc) tloc) tloc)
          (.call (.var "f" tloc) [.int 2 tloc] tloc) tloc)
        [] ⟨[], []⟩
      = .ok (.int 3) ⟨[], []⟩
    ∧ ∀ (fuel : Nat) (t : Term) (ctx : Interp.Context) (st : Interp.St),
        Interp.cacheUntouched st.cache (Interp.eval fuel t ctx st) :=
  ⟨rfl, eval_cache_invariant⟩

/-- C10 (confirmed).  In `interp.rs`, a call runs its arguments and body in
the left-biased union of the closure's captured environment with the
caller's environment: a name absent from the captured side resolves to the
caller's binding, so in
`let x = 3 in let f = fn() => y in let y = 4 in f()` the variable `y` —
unbound when the closure was created — resolves at call time to the
caller-scope binding introduced after creation, and the program evaluates
to `4` (the behavior documented in the source's own comment). -/
theorem call_env_union_dynamic_binding :
    Interp.eval 9
        (.let_ "x" (.int 3 tloc)
          (.let_ "f" (.function [] (.var "y" tloc) tloc)
            (.let_ "y" (.int 4 tloc) (.call (.var "f" tloc) [] tloc) tloc) tloc) tloc)
        [] ⟨[], []⟩
      = .ok (.int 4) ⟨[], []⟩
    ∧ ∀ (name : String) (cctx ctx : Interp.Context),
        Interp.lookup cctx name = none →
        Interp.lookup (Interp.union cctx ctx) name = Interp.lookup ctx name := by
  constructor
  · rfl
  · intro name cctx ctx
    induction cctx with
    | nil => intro _; rfl
    | cons p rest ih =>
      intro h
      obtain ⟨k, v⟩ := p
      by_cases hk : k = name
      · simp only [Interp.lookup, if_pos hk] at h
        simp at h
      · simp only [Interp.lookup, if_neg hk] at h
        show Interp.lookup ((k, v) :: (rest ++ ctx)) name = Interp.lookup ctx name
        simp only [Interp.lookup, if_neg hk]
        exact ih h

/-- Witness for the union-lookup component of
`call_env_union_dynamic_binding` at a concrete late binding. -/
theorem call_env_union_dynamic_binding_witness :
    Interp.lookup [] "y" = none
    ∧ Interp.lookup (Interp.union [] [("y", Interp.Value.int 4)]) "y"
      = Interp.lookup [("y", Interp.Value.int 4)] "y" :=
  ⟨rfl, call_env_union_dynamic_binding.2 "y" [] [("y", Interp.Value.int 4)] rfl⟩

end Lipsum
